import Mathlib

/-!
Verification of the world-state engine of jocarsa-lime (src/servidor.js).

The server keeps an in-memory array `celdas` of client-supplied cell
records, serves it over HTTP, and persists it to a JSON file.  This file
gives a shallow embedding of that logic:

* JSON values are modelled by the inductive type `Json`.  JSON numbers are
  modelled as integers; no claim depends on non-integer numerics.
* The on-disk file is modelled at the level of its parsed content
  (`FileContent`), because the byte-level encoding is performed by the
  Node builtins JSON.stringify / JSON.parse, which are outside this
  repository: `FileContent.valid cells` models a file whose text parses
  as the JSON array holding `cells` (the only shape servidor.js ever
  writes), `FileContent.corrupt` a file whose text fails to parse, and a
  missing `dataFile` a file that does not exist.
* The POST /save-cell handler (servidor.js lines 225-244 of the second
  server version) is embedded as the pure function `handleSaveCell`;
  `saveCeldas` (lines 134-144) and `loadCeldas` (lines 117-131) as pure
  state transformers over `FileSystem`.
* The setInterval / clearInterval / process.exit machinery around
  graceful shutdown (lines 150-166) is embedded as the transition system
  `stepEvent` over `ProcState`.
-/

/-- JSON values, with numbers restricted to the integers (sufficient for
every claim considered here). -/
inductive Json where
  | null
  | bool (b : Bool)
  | num (n : Int)
  | str (s : String)
  | arr (elts : List Json)
  | obj (fields : List (String × Json))

/-- First-match lookup of an object field.  JSON.parse never produces an
object with duplicate keys (the last occurrence wins during parsing), so
first-match equals the JavaScript property read on parsed data. -/
def lookupField : List (String × Json) → String → Option Json
  | [], _ => none
  | (k, v) :: rest, name => if k == name then some v else lookupField rest name

/-- JavaScript property access `data.name` on a parsed JSON value that is
not null: objects yield their field, every other value yields undefined
(modelled as `none`).  Access on null throws a TypeError; the handler
embedding treats that case separately via `isNullJson`, mirroring the
try/catch in servidor.js. -/
def jsGetField : Json → String → Option Json
  | Json.obj fields, name => lookupField fields name
  | _, _ => none

/-- The check `data.name !== undefined` from the handler: a parsed JSON
object has the property exactly when the field is present. -/
def hasField (data : Json) (name : String) : Bool :=
  (jsGetField data name).isSome

/-- Whether the parsed body is the JSON literal null, in which case the
property accesses in the validation line throw and the catch branch
answers with the Invalid JSON error. -/
def isNullJson : Json → Bool
  | Json.null => true
  | _ => false

/-- Parsed content of a stored file: `valid cells` is a file whose text
parses as the JSON array holding `cells`, `corrupt` a file whose text
JSON.parse rejects. -/
inductive FileContent where
  | valid (cells : List Json)
  | corrupt

/-- The two paths servidor.js touches: celdas.json (`dataFile`) and
celdas_temp.json (`tempFile`).  `none` models a missing file. -/
structure FileSystem where
  dataFile : Option FileContent
  tempFile : Option FileContent

/-- The state of the world before the process ever ran: neither file
exists. -/
def initialFS : FileSystem :=
  { dataFile := none, tempFile := none }

/-- First half of saveCeldas: fs.writeFileSync(TEMP_DATA_FILE, ...) writes
the serialized celdas array to the temporary file only. -/
def writeTempFile (fs : FileSystem) (cells : List Json) : FileSystem :=
  { fs with tempFile := some (FileContent.valid cells) }

/-- A crash in the middle of the temporary-file write: the temporary file
may hold truncated, unparseable text, but the data file is untouched. -/
def midTempWrite (fs : FileSystem) : FileSystem :=
  { fs with tempFile := some FileContent.corrupt }

/-- Second half of saveCeldas: fs.renameSync(TEMP_DATA_FILE, DATA_FILE)
atomically moves the temporary file onto the data file. -/
def renameTempFile (fs : FileSystem) : FileSystem :=
  { dataFile := fs.tempFile, tempFile := none }

/-- saveCeldas (servidor.js lines 134-144): write the whole celdas array
to the temporary file, then rename it onto the data file. -/
def saveCeldas (fs : FileSystem) (cells : List Json) : FileSystem :=
  renameTempFile (writeTempFile fs cells)

/-- Every file-system state observable while one saveCeldas call runs:
before it starts, after a crash in the middle of the temporary write,
after the temporary write completed, and after the rename. -/
def saveIntermediates (fs : FileSystem) (cells : List Json) : List FileSystem :=
  [fs, midTempWrite fs, writeTempFile fs cells, renameTempFile (writeTempFile fs cells)]

/-- loadCeldas (servidor.js lines 117-131): if the data file exists and
parses, replace celdas with its content; on a missing file or a parse
error (caught, logged) celdas keeps its current value. -/
def loadCeldas (fs : FileSystem) (celdas : List Json) : List Json :=
  match fs.dataFile with
  | none => celdas
  | some FileContent.corrupt => celdas
  | some (FileContent.valid cells) => cells

/-- The error response bodies of the handler. -/
def errorBody (msg : String) : Json :=
  Json.obj [("status", Json.str "error"), ("message", Json.str msg)]

/-- The request body as it reaches the end handler: either text that
JSON.parse rejects, or the parsed JSON value. -/
inductive ReqBody where
  | malformed
  | parsed (data : Json)

/-- Observable outcome of one POST /save-cell request: HTTP status code,
response body, and the celdas array and file system afterwards. -/
structure HandlerResult where
  status : Nat
  respBody : Json
  celdas : List Json
  fs : FileSystem

/-- The POST /save-cell end handler (servidor.js lines 225-244): parse the
body (parse failure, and the TypeError of a property access on null, land
in the catch branch); if data.x, data.y and data.color are all defined,
push the whole parsed object onto celdas, save immediately, and answer
200 with the serialized full celdas array; otherwise answer 400 with the
Invalid data format error, leaving celdas untouched. -/
def handleSaveCell (celdas : List Json) (fs : FileSystem) (body : ReqBody) : HandlerResult :=
  match body with
  | ReqBody.malformed =>
      { status := 400, respBody := errorBody "Invalid JSON", celdas := celdas, fs := fs }
  | ReqBody.parsed data =>
      if isNullJson data then
        { status := 400, respBody := errorBody "Invalid JSON", celdas := celdas, fs := fs }
      else if hasField data "x" && hasField data "y" && hasField data "color" then
        { status := 200, respBody := Json.arr (celdas ++ [data]),
          celdas := celdas ++ [data], fs := saveCeldas fs (celdas ++ [data]) }
      else
        { status := 400, respBody := errorBody "Invalid data format", celdas := celdas, fs := fs }

/-- A sequence of POST /save-cell requests, applied in arrival order. -/
def runRequests (celdas : List Json) (fs : FileSystem) : List ReqBody → List Json × FileSystem
  | [] => (celdas, fs)
  | b :: bs =>
      runRequests (handleSaveCell celdas fs b).celdas (handleSaveCell celdas fs b).fs bs

/-- The payload a request contributes to celdas: the whole parsed object
when the handler accepts it, nothing otherwise. -/
def acceptedPayload : ReqBody → Option Json
  | ReqBody.malformed => none
  | ReqBody.parsed d =>
      if !(isNullJson d) && (hasField d "x" && hasField d "y" && hasField d "color") then some d
      else none

/-- The operations a client or the timer can perform against the running
server within one process lifetime. -/
inductive Op where
  | paint (body : ReqBody)
  | getCells
  | save

/-- One operation against the in-memory celdas array and the file system:
a paint request runs the handler, GET /celdas only reads (servidor.js
lines 245-249), and a periodic or shutdown save runs saveCeldas. -/
def stepOp (st : List Json × FileSystem) : Op → List Json × FileSystem
  | Op.paint b => ((handleSaveCell st.1 st.2 b).celdas, (handleSaveCell st.1 st.2 b).fs)
  | Op.getCells => st
  | Op.save => (st.1, saveCeldas st.2 st.1)

/-- A sequence of operations within one process lifetime. -/
def runOps (st : List Json × FileSystem) : List Op → List Json × FileSystem
  | [] => st
  | o :: os => runOps (stepOp st o) os

/-- Process state for the shutdown model: whether the periodic save timer
(setInterval, servidor.js line 150) is still scheduled, whether
process.exit has run, and the world state. -/
structure ProcState where
  timerActive : Bool
  exited : Bool
  celdas : List Json
  fs : FileSystem

/-- Events delivered to the process: a tick of the periodic save timer,
or a shutdown signal (SIGINT / SIGTERM). -/
inductive Event where
  | tick
  | sigint

/-- One event against the process (servidor.js lines 150-166).  A timer
tick runs saveCeldas, but only while the interval is scheduled and the
process is alive.  A shutdown signal runs gracefulShutdown: clearInterval
stops the timer, saveCeldas flushes the current celdas, and process.exit
ends the process; after exit nothing runs any more. -/
def stepEvent (p : ProcState) : Event → ProcState
  | Event.tick =>
      if p.timerActive && !p.exited then { p with fs := saveCeldas p.fs p.celdas } else p
  | Event.sigint =>
      if !p.exited then
        { p with timerActive := false, exited := true, fs := saveCeldas p.fs p.celdas }
      else p

/-- A sequence of events delivered to the process. -/
def runEvents (p : ProcState) : List Event → ProcState
  | [] => p
  | e :: es => runEvents (stepEvent p e) es

/-- Modelled from the spec: the repository source under src/ holds only
the server (servidor.js), which contains no painted-versus-blank
classification; spec sections 3 and 4.1 define it.  A character is
whitespace for trimming purposes in the usual JavaScript trim sense. -/
def isSpaceChar (c : Char) : Bool :=
  c == ' ' || c == '\t' || c == '\n' || c == '\r'

/-- Modelled from the spec: ASCII lower-casing of one character, the
case-insensitivity the spec asks of the blank-color comparison. -/
def lowerChar (c : Char) : Char :=
  if 'A' ≤ c && c ≤ 'Z' then Char.ofNat (c.toNat + 32) else c

/-- Modelled from the spec: a color string trimmed of surrounding
whitespace and lower-cased, as a character list. -/
def normalizeColor (s : String) : List Char :=
  (((s.data.dropWhile isSpaceChar).reverse.dropWhile isSpaceChar).reverse).map lowerChar

/-- Modelled from the spec: the reserved blank set of spec section 3. -/
def blankColors : List (List Char) :=
  ["#fff".data, "#ffffff".data, "white".data]

/-- Modelled from the spec: IsPainted of spec section 4.1 — a color is
painted exactly when, case-insensitively trimmed, it is not in the
reserved blank set. -/
def isPainted (color : String) : Bool :=
  !(blankColors.contains (normalizeColor color))

/-- Whether a stored record carries exactly the integer coordinates
(x, y) in its x and y fields. -/
def coordIs (c : Json) (x y : Int) : Bool :=
  match jsGetField c "x", jsGetField c "y" with
  | some (Json.num a), some (Json.num b) => a == x && b == y
  | _, _ => false

/-- How many stored records sit at the coordinate (x, y). -/
def countAt (celdas : List Json) (x y : Int) : Nat :=
  celdas.countP (fun c => coordIs c x y)

lemma stepEvent_exited (p : ProcState) (h : p.exited = true) (e : Event) :
    stepEvent p e = p := by
  cases e <;> simp [stepEvent, h]

lemma runEvents_exited (evs : List Event) (p : ProcState) (h : p.exited = true) :
    runEvents p evs = p := by
  induction evs with
  | nil => rfl
  | cons e es ih => simp [runEvents, stepEvent_exited p h e, ih]

lemma handleSaveCell_celdas_cases (cs : List Json) (fs : FileSystem) (b : ReqBody) :
    (handleSaveCell cs fs b).celdas = cs ∨
      ∃ d, (handleSaveCell cs fs b).celdas = cs ++ [d] := by
  cases b with
  | malformed => exact Or.inl rfl
  | parsed d =>
      by_cases hn : isNullJson d = true
      · exact Or.inl (by simp [handleSaveCell, hn])
      · by_cases hf : (hasField d "x" && hasField d "y" && hasField d "color") = true
        · exact Or.inr ⟨d, by simp [handleSaveCell, hn, hf]⟩
        · exact Or.inl (by simp [handleSaveCell, hn, hf])

lemma stepOp_length_bounds (st : List Json × FileSystem) (o : Op) :
    st.1.length ≤ (stepOp st o).1.length ∧ (stepOp st o).1.length ≤ st.1.length + 1 := by
  cases o with
  | paint b =>
      rcases handleSaveCell_celdas_cases st.1 st.2 b with h | ⟨d, h⟩
      · simp [stepOp, h]
      · simp [stepOp, h]
  | getCells => simp [stepOp]
  | save => simp [stepOp]

lemma runOps_length_mono (ops : List Op) (st : List Json × FileSystem) :
    st.1.length ≤ (runOps st ops).1.length := by
  induction ops generalizing st with
  | nil => exact Nat.le_refl _
  | cons o os ih =>
      exact Nat.le_trans (stepOp_length_bounds st o).1 (ih (stepOp st o))

/-- Claim C1, counterexample: painting (0,0) red and then (0,0) blue — two
successful calls for the same coordinate — leaves two records at (0,0) in
the celdas array GetCells serves, not the single latest-color record the
claim requires. -/
theorem repaint_duplicates_record :
    (handleSaveCell [] initialFS
        (ReqBody.parsed (Json.obj
          [("x", Json.num 0), ("y", Json.num 0), ("color", Json.str "red")]))).status = 200 ∧
    (runRequests [] initialFS
        [ReqBody.parsed (Json.obj
           [("x", Json.num 0), ("y", Json.num 0), ("color", Json.str "red")]),
         ReqBody.parsed (Json.obj
           [("x", Json.num 0), ("y", Json.num 0), ("color", Json.str "blue")])]).1.length = 2 ∧
    countAt (runRequests [] initialFS
        [ReqBody.parsed (Json.obj
           [("x", Json.num 0), ("y", Json.num 0), ("color", Json.str "red")]),
         ReqBody.parsed (Json.obj
           [("x", Json.num 0), ("y", Json.num 0), ("color", Json.str "blue")])]).1 0 0 ≠ 1 := by
  refine ⟨rfl, rfl, ?_⟩
  decide

/-- Claim C1, amended: a sequence of PaintCell calls appends one record
per accepted call, in arrival order, each holding the payload of its own
call; a repaint of an already painted coordinate appends a further record
instead of replacing the earlier one, so GetCells serves one record per
successful call, not one per distinct coordinate. -/
theorem getCells_one_record_per_successful_paint :
    ∀ (bs : List ReqBody) (cs : List Json) (fs : FileSystem),
      (runRequests cs fs bs).1 = cs ++ bs.filterMap acceptedPayload := by
  intro bs
  induction bs with
  | nil => intro cs fs; simp [runRequests]
  | cons b bs ih =>
      intro cs fs
      cases b with
      | malformed => simp [runRequests, handleSaveCell, acceptedPayload, ih]
      | parsed d =>
          by_cases hn : isNullJson d = true
          · simp [runRequests, handleSaveCell, acceptedPayload, hn, ih]
          · by_cases hf : (hasField d "x" && hasField d "y" && hasField d "color") = true
            · simp [runRequests, handleSaveCell, acceptedPayload, hn, hf, ih]
            · simp [runRequests, handleSaveCell, acceptedPayload, hn, hf, ih]

/-- Claim C2, counterexample: the payload with x the string "a" (not an
integer) and color the empty string must, per the claim, draw a
ValidationError; the handler accepts it with status 200, because the
validation only tests the three properties against undefined. -/
theorem wrong_type_payload_accepted :
    (handleSaveCell [] initialFS
        (ReqBody.parsed (Json.obj
          [("x", Json.str "a"), ("y", Json.num 0), ("color", Json.str "")]))).status = 200 ∧
    (handleSaveCell [] initialFS
        (ReqBody.parsed (Json.obj
          [("x", Json.str "a"), ("y", Json.num 0), ("color", Json.str "")]))).status ≠ 400 := by
  exact ⟨rfl, by decide⟩

/-- Claim C2, amended: for a body that parses, PaintCell returns the
ValidationError response (status 400) exactly when the parsed value is
null or lacks one of the x, y, color properties; no integer-type check on
x and y and no non-emptiness check on color is performed, every other
payload succeeds.  A body that fails to parse is also answered 400. -/
theorem validation_error_iff_missing_field :
    ∀ (cs : List Json) (fs : FileSystem) (d : Json),
      ((handleSaveCell cs fs (ReqBody.parsed d)).status = 400 ↔
        (isNullJson d || !(hasField d "x" && hasField d "y" && hasField d "color")) = true) ∧
      (handleSaveCell cs fs ReqBody.malformed).status = 400 := by
  intro cs fs d
  refine ⟨?_, rfl⟩
  by_cases hn : isNullJson d = true
  · simp [handleSaveCell, hn]
  · by_cases hf : (hasField d "x" && hasField d "y" && hasField d "color") = true
    · simp [handleSaveCell, hn, hf]
    · simp [handleSaveCell, hn, hf]

/-- Claim C3, counterexample: a payload with wrong-typed fields (x a
boolean, y a string) is, per the claim, a malformed mutation that must be
rejected leaving the state unchanged; the handler accepts it with status
200 and grows the celdas array from zero to one record. -/
theorem wrong_type_payload_mutates_state :
    (handleSaveCell [] initialFS
        (ReqBody.parsed (Json.obj
          [("x", Json.bool true), ("y", Json.str "q"), ("color", Json.str "g")]))).status ≠ 400 ∧
    (handleSaveCell [] initialFS
        (ReqBody.parsed (Json.obj
          [("x", Json.bool true), ("y", Json.str "q"), ("color", Json.str "g")]))).celdas.length
      = 1 := by
  exact ⟨by decide, rfl⟩

/-- Claim C3, amended: whenever PaintCell answers with an error (status
400) — an unparseable body, a null payload, or a payload missing x, y or
color — the celdas array and the persisted files are exactly what they
were before the call, and an unparseable body is always answered 400;
payloads whose fields are merely of the wrong type are, however,
accepted, not rejected. -/
theorem rejected_payload_leaves_state_unchanged :
    ∀ (cs : List Json) (fs : FileSystem) (b : ReqBody),
      ((handleSaveCell cs fs b).status = 400 →
        (handleSaveCell cs fs b).celdas = cs ∧ (handleSaveCell cs fs b).fs = fs) ∧
      (b = ReqBody.malformed → (handleSaveCell cs fs b).status = 400) := by
  intro cs fs b
  cases b with
  | malformed => exact ⟨fun _ => ⟨rfl, rfl⟩, fun _ => rfl⟩
  | parsed d =>
      refine ⟨?_, by intro h; cases h⟩
      by_cases hn : isNullJson d = true
      · intro _; constructor <;> simp [handleSaveCell, hn]
      · by_cases hf : (hasField d "x" && hasField d "y" && hasField d "color") = true
        · intro h
          simp [handleSaveCell, hn, hf] at h
        · intro _; constructor <;> simp [handleSaveCell, hn, hf]

/-- Claim C3, witness: at the concrete unparseable body the call is
rejected and leaves the empty celdas array empty. -/
theorem rejected_payload_leaves_state_unchanged_witness :
    (handleSaveCell [] initialFS ReqBody.malformed).status = 400 ∧
    (handleSaveCell [] initialFS ReqBody.malformed).celdas = [] :=
  ⟨(rejected_payload_leaves_state_unchanged [] initialFS ReqBody.malformed).2 rfl,
   ((rejected_payload_leaves_state_unchanged [] initialFS ReqBody.malformed).1
     ((rejected_payload_leaves_state_unchanged [] initialFS ReqBody.malformed).2 rfl)).1⟩

/-- Claim C4: saving a celdas array and then loading reproduces exactly
the same list of records — the same coordinates, colors and record count
— whatever the previous content of the files and of the in-memory array
was. -/
theorem save_load_roundtrip :
    ∀ (fs : FileSystem) (cells cur : List Json),
      loadCeldas (saveCeldas fs cells) cur = cells := by
  intro fs cells cur
  rfl

/-- Claim C5: loading never refuses to boot — when the data file is
missing or its content does not parse, loadCeldas leaves the startup
value of celdas in place, so the world starts as the empty collection. -/
theorem load_missing_or_corrupt_starts_empty :
    ∀ fs : FileSystem,
      fs.dataFile = none ∨ fs.dataFile = some FileContent.corrupt →
      loadCeldas fs [] = [] := by
  intro fs h
  rcases h with h | h <;> simp [loadCeldas, h]

/-- Claim C5, witness: on the initial file system, where celdas.json does
not exist, startup yields the empty collection. -/
theorem load_missing_or_corrupt_starts_empty_witness :
    loadCeldas initialFS [] = [] :=
  load_missing_or_corrupt_starts_empty initialFS (Or.inl rfl)

/-- Claim C6: saveCeldas commits through the temporary file followed by a
rename, and at every observable point of the sequence — before it, after
a crash in the middle of the temporary write, after the temporary write,
and after the rename — the data file holds either its previous content or
the complete new array, never a partial write. -/
theorem save_intermediate_states_atomic :
    ∀ (fs : FileSystem) (cells : List Json) (mid : FileSystem),
      mid ∈ saveIntermediates fs cells →
      mid.dataFile = fs.dataFile ∨ mid.dataFile = some (FileContent.valid cells) := by
  intro fs cells mid h
  simp only [saveIntermediates, List.mem_cons, List.not_mem_nil, or_false] at h
  rcases h with rfl | rfl | rfl | rfl
  · exact Or.inl rfl
  · exact Or.inl rfl
  · exact Or.inl rfl
  · exact Or.inr rfl

/-- Claim C6, witness: the state after the crash in the middle of the
temporary write of an empty array over the initial file system still
shows the previous data file. -/
theorem save_intermediate_states_atomic_witness :
    (midTempWrite initialFS).dataFile = initialFS.dataFile ∨
      (midTempWrite initialFS).dataFile = some (FileContent.valid []) :=
  save_intermediate_states_atomic initialFS [] (midTempWrite initialFS)
    (by simp [saveIntermediates])

/-- Claim C7: across any sequence of paint, GetCells and save operations
within one process lifetime the celdas array never loses a record — its
length is non-decreasing — and a single operation adds at most one
record. -/
theorem celdas_length_monotone :
    (∀ (st : List Json × FileSystem) (o : Op),
        st.1.length ≤ (stepOp st o).1.length ∧ (stepOp st o).1.length ≤ st.1.length + 1) ∧
    (∀ (st : List Json × FileSystem) (ops : List Op),
        st.1.length ≤ (runOps st ops).1.length) :=
  ⟨stepOp_length_bounds, fun st ops => runOps_length_mono ops st⟩

/-- Claim C8: a color fails IsPainted exactly when, trimmed and
lower-cased, it lies in the reserved blank set; in particular the three
spec examples are not painted and representative other strings are. -/
theorem isPainted_blank_classification :
    isPainted "#fff" = false ∧
    isPainted "#FFFFFF" = false ∧
    isPainted " white " = false ∧
    isPainted "red" = true ∧
    isPainted "#abc123" = true ∧
    (∀ c : String, isPainted c = false ↔ blankColors.contains (normalizeColor c) = true) := by
  refine ⟨by decide, by decide, by decide, by decide, by decide, ?_⟩
  intro c
  unfold isPainted
  cases h : blankColors.contains (normalizeColor c) with
  | false => decide
  | true => decide

/-- Claim C9: delivering a shutdown signal to a live process cancels the
periodic save timer, marks the process exited, and flushes the current
celdas to the data file before exit; afterwards no event changes the
state any more, and a timer tick never saves once the timer is
cancelled. -/
theorem shutdown_cancels_timer_and_flushes :
    ∀ p : ProcState, p.exited = false →
      (stepEvent p Event.sigint).timerActive = false ∧
      (stepEvent p Event.sigint).exited = true ∧
      (stepEvent p Event.sigint).fs.dataFile = some (FileContent.valid p.celdas) ∧
      (∀ evs : List Event, runEvents (stepEvent p Event.sigint) evs = stepEvent p Event.sigint) ∧
      (∀ q : ProcState, q.timerActive = false → stepEvent q Event.tick = q) := by
  intro p h
  have hstep : stepEvent p Event.sigint =
      { p with timerActive := false, exited := true, fs := saveCeldas p.fs p.celdas } := by
    simp [stepEvent, h]
  refine ⟨by rw [hstep], by rw [hstep], by rw [hstep]; rfl, ?_, ?_⟩
  · intro evs
    exact runEvents_exited evs _ (by rw [hstep])
  · intro q hq
    simp [stepEvent, hq]

/-- Claim C9, witness: a live process with an active timer and empty
celdas, on the shutdown signal, ends with the timer cancelled and the
empty array flushed to the data file. -/
theorem shutdown_cancels_timer_and_flushes_witness :
    (stepEvent { timerActive := true, exited := false, celdas := [], fs := initialFS }
        Event.sigint).timerActive = false ∧
    (stepEvent { timerActive := true, exited := false, celdas := [], fs := initialFS }
        Event.sigint).fs.dataFile = some (FileContent.valid []) :=
  ⟨(shutdown_cancels_timer_and_flushes
      { timerActive := true, exited := false, celdas := [], fs := initialFS } rfl).1,
   (shutdown_cancels_timer_and_flushes
      { timerActive := true, exited := false, celdas := [], fs := initialFS } rfl).2.2.1⟩

/-- Claim C10: a successful PaintCell appends the whole parsed payload
object verbatim — extra fields beyond x, y, color included — to the
celdas array, persists that full array to the data file, and answers with
the serialization of the entire current array. -/
theorem successful_paint_stores_payload_verbatim :
    ∀ (cs : List Json) (fs : FileSystem) (d : Json),
      (hasField d "x" && hasField d "y" && hasField d "color") = true →
      (handleSaveCell cs fs (ReqBody.parsed d)).status = 200 ∧
      (handleSaveCell cs fs (ReqBody.parsed d)).celdas = cs ++ [d] ∧
      (handleSaveCell cs fs (ReqBody.parsed d)).respBody = Json.arr (cs ++ [d]) ∧
      (handleSaveCell cs fs (ReqBody.parsed d)).fs.dataFile
        = some (FileContent.valid (cs ++ [d])) := by
  intro cs fs d h
  have hn : isNullJson d = false := by
    cases d <;> first
      | rfl
      | (exfalso; simp [hasField, jsGetField] at h)
  refine ⟨?_, ?_, ?_, ?_⟩ <;> simp [handleSaveCell, hn, h, saveCeldas, renameTempFile,
    writeTempFile]

/-- Claim C10, witness: a payload carrying an extra field beyond x, y and
color is stored whole and echoed back inside the full-array response. -/
theorem successful_paint_stores_payload_verbatim_witness :
    (hasField (Json.obj [("x", Json.num 1), ("y", Json.num 2), ("color", Json.str "red"),
        ("extra", Json.str "kept")]) "x" &&
      hasField (Json.obj [("x", Json.num 1), ("y", Json.num 2), ("color", Json.str "red"),
        ("extra", Json.str "kept")]) "y" &&
      hasField (Json.obj [("x", Json.num 1), ("y", Json.num 2), ("color", Json.str "red"),
        ("extra", Json.str "kept")]) "color") = true ∧
    (handleSaveCell [] initialFS (ReqBody.parsed
        (Json.obj [("x", Json.num 1), ("y", Json.num 2), ("color", Json.str "red"),
          ("extra", Json.str "kept")]))).celdas
      = [Json.obj [("x", Json.num 1), ("y", Json.num 2), ("color", Json.str "red"),
          ("extra", Json.str "kept")]] :=
  ⟨rfl,
   (successful_paint_stores_payload_verbatim [] initialFS
      (Json.obj [("x", Json.num 1), ("y", Json.num 2), ("color", Json.str "red"),
        ("extra", Json.str "kept")]) rfl).2.1⟩
